import Mathlib

/-!
# Verification of the openebs upgrade plugin (shallow embedding)

This file embeds the data model and operations of the openebs kubectl
plugin's upgrade subsystem in Lean 4, translated from the Rust sources:

* `src/plugin/src/cli_utils/upgrade/mod.rs` — the orchestration controller,
  the preflight validation pipeline, the idempotent resource lifecycle;
* `src/plugin/src/cli_utils/upgrade/helm_values.rs` — the Helm release
  resolver's feature-flag logic;
* `src/plugin/src/cli_utils/upgrade/k8s/mod.rs` and `k8s/resources.rs` —
  event purging and resource-name derivation;
* `src/openebs-upgrade/src/helm/values.rs` — the safe-CRD-install toggle
  computation;
* `src/plugin/src/constants.rs` — the version-tag derived naming suffix.

External effects (Kubernetes API calls, the REST client, clock sleeps,
the build-time `version_info!()` macro, `serde_json` parsing) are modelled
as explicit inputs (oracles) of the embedded functions; everything the
source computes is translated structurally.
-/

namespace OpenebsUpgrade

/-! ## Semantic versions (the `semver` crate's data model)

`semver::Version` carries major/minor/patch numbers, a dot-separated
pre-release identifier list and build metadata.  Identifiers are numeric or
alphanumeric; the crate's `Ord` compares major, minor, patch, then the
pre-release (an empty pre-release sorts above any non-empty one; numeric
identifiers sort below alphanumeric ones, numerics compare by value,
alphanumerics by byte order, a strict prefix sorts first), then build
metadata per identifier. -/

/-- One dot-separated identifier of a pre-release or build-metadata tag. -/
inductive SemVerIdent
  | num (n : Nat)
  | alpha (s : String)
deriving DecidableEq, Repr

/-- Strict order on identifiers: numeric below alphanumeric, numerics by
value, alphanumerics by byte order. -/
def SemVerIdent.identLt : SemVerIdent → SemVerIdent → Bool
  | .num a, .num b => a < b
  | .num _, .alpha _ => true
  | .alpha _, .num _ => false
  | .alpha a, .alpha b => a < b

/-- Lexicographic strict order on identifier lists, a strict prefix first. -/
def identListLt : List SemVerIdent → List SemVerIdent → Bool
  | _, [] => false
  | [], _ :: _ => true
  | a :: as, b :: bs => a.identLt b || (a == b && identListLt as bs)

/-- Strict order on pre-release tags: an empty pre-release (a stable
release) sorts above every non-empty one. -/
def preLt (a b : List SemVerIdent) : Bool :=
  match a, b with
  | [], _ => false
  | _ :: _, [] => true
  | a, b => identListLt a b

/-- Model of `semver::Version`. -/
structure SemVer where
  major : Nat
  minor : Nat
  patch : Nat
  pre : List SemVerIdent
  build : List SemVerIdent
deriving DecidableEq, Repr

/-- The `semver` crate's `Version::lt`: major, minor, patch, pre-release
precedence, then build metadata as the final tie-breaker. -/
def SemVer.lt (a b : SemVer) : Bool :=
  if a.major ≠ b.major then a.major < b.major
  else if a.minor ≠ b.minor then a.minor < b.minor
  else if a.patch ≠ b.patch then a.patch < b.patch
  else if a.pre ≠ b.pre then preLt a.pre b.pre
  else identListLt a.build b.build

/-! ## Version compatibility policy (`upgrade_path_validation`)

`upgrade_path_validation` (plugin `upgrade/mod.rs`) reads the invoking
binary's build data through `version_info!()` and `get_destination_version_tag()`
(plugin `constants.rs`).  These are build-time constants external to the
function; they are modelled as an explicit `BuildInfo` input:
`destination_version` is the result of `get_destination_version_tag()`
(the binary's version tag, defaulting to `"develop"`), and `self_version`
is the binary's own tag parsed as a semantic version after stripping a
leading `'v'` (absent when the tag is missing, empty or unparseable). -/

/-- Build-time data of the invoking binary. -/
structure BuildInfo where
  destination_version : String
  self_version : Option SemVer
deriving DecidableEq, Repr

/-- Predicate: `needle` is a prefix of `hay` (on character lists). -/
def listIsPrefixOf : List Char → List Char → Bool
  | [], _ => true
  | _ :: _, [] => false
  | a :: as, b :: bs => a == b && listIsPrefixOf as bs

/-- Predicate: `needle` occurs as a contiguous sublist of `hay`. -/
def listContainsSub (needle : List Char) : List Char → Bool
  | [] => listIsPrefixOf needle []
  | h :: t => listIsPrefixOf needle (h :: t) || listContainsSub needle t

/-- Rust's `str::contains`: `needle` occurs as a substring of `hay`. -/
def strContains (hay needle : String) : Bool :=
  listContainsSub needle.data hay.data

/-- The three distinct failure conditions of `upgrade_path_validation`. -/
inductive PathError
  | destinationDevelop
  | stableToUnstable
  | higherToLower
deriving DecidableEq, Repr

/-- Source `upgrade_path_validation` from plugin `upgrade/mod.rs`: rejects a
development destination, a stable→unstable path unless allowed, and a
downgrade below the source version. -/
def upgrade_path_validation (allow_unstable : Bool) (source_version : SemVer)
    (build : BuildInfo) : Except PathError Unit :=
  if strContains build.destination_version "develop" then
    .error .destinationDevelop
  else
    let fail_stable_to_unstable : Bool :=
      if !allow_unstable then
        let self_is_stable : Bool :=
          match build.self_version with
          | some v => v.pre.isEmpty
          | none => false
        source_version.pre.isEmpty && !self_is_stable
      else false
    if fail_stable_to_unstable then
      .error .stableToUnstable
    else
      match build.self_version with
      | some v => if v.lt source_version then .error .higherToLower else .ok ()
      | none => .ok ()

/-! ## Kubernetes events and `get_latest_upgrade_event`

`k8s_openapi::api::events::v1::Event` fields used by the upgrade code:
`reason`, `action` and `note` are optional strings, `event_time` is an
optional microsecond timestamp (modelled as `Option Nat`; the derived
`Ord` on `Option` puts `none` below every `some`, as in Rust). -/

/-- The slice of a cluster `Event` the upgrade code reads. -/
structure Event where
  reason : Option String
  action : Option String
  note : Option String
  event_time : Option Nat
deriving DecidableEq, Repr

/-- Order `a ≤ b` for optional event times (`None < Some`, as Rust's derived
`Ord` on `Option<MicroTime>`). -/
def optTimeLe (a b : Option Nat) : Bool :=
  match a, b with
  | none, _ => true
  | some _, none => false
  | some x, some y => x ≤ y

/-- Model of `Iterator::max_by_key` on event time: folds left keeping the running
maximum, a tie replaced by the later element (Rust returns the last of
several equal maxima). -/
def maxByEventTime (e : Event) (es : List Event) : Event :=
  es.foldl (fun acc n => if optTimeLe acc.event_time n.event_time then n else acc) e

/-- Source `get_latest_upgrade_event` from plugin `upgrade/mod.rs`: among the
listed events keeps those with reason `"OpenebsUpgrade"` and returns the
one maximal by event time, or the error `"No upgrade event present"`.
The event list is the result of `list_events` with the upgrade job's
field selector, supplied here as input. -/
def get_latest_upgrade_event (events : List Event) : Except String Event :=
  match events.filter (fun e => e.reason == some "OpenebsUpgrade") with
  | [] => .error "No upgrade event present"
  | e :: es => .ok (maxByEventTime e es)

/-! ## Idempotent resource lifecycle (`idempotent_create_resource`,
`idempotent_delete_resource`, `create_upgrade_resources`)

A Kubernetes API call's outcome is an input: `none` is success,
`some (.api reason)` is `kube::Error::Api` carrying the response's
`reason` field, `some (.other msg)` is any other `kube::Error` variant. -/

/-- The error of a failed Kubernetes API call. -/
inductive KubeError
  | api (reason : String)
  | other (msg : String)
deriving DecidableEq, Repr

/-- Source `idempotent_create_resource` from plugin `upgrade/mod.rs`: a create
that fails with API reason `"AlreadyExists"` is success; every other
error propagates. -/
def idempotent_create_resource (createOutcome : Option KubeError) :
    Except KubeError Unit :=
  match createOutcome with
  | none => .ok ()
  | some (.api reason) =>
      if reason == "AlreadyExists" then .ok () else .error (.api reason)
  | some (.other msg) => .error (.other msg)

/-- Source `idempotent_delete_resource` from plugin `upgrade/mod.rs`: a delete
that fails with API reason `"NotFound"` is success; every other error
propagates. -/
def idempotent_delete_resource (deleteOutcome : Option KubeError) :
    Except KubeError Unit :=
  match deleteOutcome with
  | none => .ok ()
  | some (.api reason) =>
      if reason == "NotFound" then .ok () else .error (.api reason)
  | some (.other msg) => .error (.other msg)

/-- The five API call outcomes of one bundle create (or delete): the
ServiceAccount, ClusterRoleBinding, ClusterRole, ConfigMap and Job calls
issued concurrently by `try_join!`. -/
structure BundleCallOutcomes where
  serviceAccount : Option KubeError
  clusterRoleBinding : Option KubeError
  clusterRole : Option KubeError
  configMap : Option KubeError
  job : Option KubeError
deriving DecidableEq, Repr

/-- The `try_join!` fan-in of `create_upgrade_resources`: succeeds iff
all five idempotent creates succeed (which error of a failed concurrent
join surfaces first is a race, so only success is modelled). -/
def create_upgrade_resources_ok (r : BundleCallOutcomes) : Bool :=
  (idempotent_create_resource r.serviceAccount).isOk
    && (idempotent_create_resource r.clusterRoleBinding).isOk
    && (idempotent_create_resource r.clusterRole).isOk
    && (idempotent_create_resource r.configMap).isOk
    && (idempotent_create_resource r.job).isOk

/-- The `try_join!` fan-in of `delete_upgrade_resources`: succeeds iff
all five idempotent deletes succeed. -/
def delete_upgrade_resources_ok (r : BundleCallOutcomes) : Bool :=
  (idempotent_delete_resource r.job).isOk
    && (idempotent_delete_resource r.configMap).isOk
    && (idempotent_delete_resource r.clusterRole).isOk
    && (idempotent_delete_resource r.clusterRoleBinding).isOk
    && (idempotent_delete_resource r.serviceAccount).isOk

/-! ## Observing the upgrade event (`handle_upgrade_event`)

`serde_json::from_str::<UpgradeEvent>` on the event's note is modelled as
an input function `parseNote : String → Option UpgradeEvent`, and the
outcome of `delete_upgrade_resources` as an input `Except` value. -/

/-- The JSON payload of an upgrade-job event (`UpgradeEvent` in plugin
`upgrade/mod.rs`). -/
structure UpgradeEvent where
  from_version : String
  to_version : String
  message : String
deriving DecidableEq, Repr

/-- What one call of `handle_upgrade_event` did: whether it invoked
`delete_upgrade_resources` (the rollback), whether it reported "The
upgrade has started" progress, and its returned result. -/
structure HandleOutcome where
  deletedResources : Bool
  reportedProgress : Bool
  result : Except String Unit
deriving Repr

/-- Source `handle_upgrade_event` from plugin `upgrade/mod.rs`: on action
`"Validation Failed"` it decodes the note's JSON payload and rolls the
bundle back (an absent note or an undecodable payload is an error and no
rollback); on any other present action it reports that the upgrade
started; on an absent action it does nothing and succeeds. -/
def handle_upgrade_event (latest_event : Event)
    (parseNote : String → Option UpgradeEvent)
    (deleteResourcesResult : Except String Unit) : HandleOutcome :=
  match latest_event.action with
  | some action =>
    if action == "Validation Failed" then
      match latest_event.note with
      | some data =>
        match parseNote data with
        | some _ev =>
            { deletedResources := true, reportedProgress := false
              result := deleteResourcesResult }
        | none =>
            { deletedResources := false, reportedProgress := false
              result := .error "serde_json deserialize error" }
      | none =>
          { deletedResources := false, reportedProgress := false
            result := .error "Note not present in upgrade event" }
    else
      { deletedResources := false, reportedProgress := true, result := .ok () }
  | none =>
      { deletedResources := false, reportedProgress := false, result := .ok () }

/-! ## Helm release decoding (`helm_values.rs`)

The deserialized Helm release document, schema exactly as the serde
structs in plugin `upgrade/helm_values.rs`: `config` fields are optional
at every level, `chart.values.engines.replicated.mayastor.enabled` is a
required `bool` underneath the optional `engines` key, and
`chart.values.mayastor.enabled` is optional. -/

/-- Serde struct `EngineEnabled`: a required `enabled` flag. -/
structure EngineEnabled where
  enabled : Bool
deriving DecidableEq, Repr

/-- Serde struct `ReplicatedEngines`. -/
structure ReplicatedEngines where
  mayastor : EngineEnabled
deriving DecidableEq, Repr

/-- Serde struct `Engines` (absent in openebs v3 charts). -/
structure Engines where
  replicated : ReplicatedEngines
deriving DecidableEq, Repr

/-- Serde struct `HelmConfigEngineEnabled`: an optional `enabled` flag. -/
structure HelmConfigEngineEnabled where
  enabled : Option Bool
deriving DecidableEq, Repr

/-- Serde struct `HelmValues`: the chart's shipped default values. -/
structure HelmValues where
  mayastor : Option HelmConfigEngineEnabled
  engines : Option Engines
deriving DecidableEq, Repr

/-- Serde struct `HelmChartMetadata`: carries the chart version. -/
structure HelmChartMetadata where
  version : SemVer
deriving DecidableEq, Repr

/-- Serde struct `HelmChart`. -/
structure HelmChart where
  values : HelmValues
  metadata : HelmChartMetadata
deriving DecidableEq, Repr

/-- Serde struct `HelmConfigValuesEnginesReplicated`. -/
structure HelmConfigValuesEnginesReplicated where
  mayastor : Option HelmConfigEngineEnabled
deriving DecidableEq, Repr

/-- Serde struct `HelmConfigValuesEngines`. -/
structure HelmConfigValuesEngines where
  replicated : Option HelmConfigValuesEnginesReplicated
deriving DecidableEq, Repr

/-- Serde struct `HelmConfigValues`: the user's explicit `--set`/`-f` overrides. -/
structure HelmConfigValues where
  mayastor : Option HelmConfigEngineEnabled
  engines : Option HelmConfigValuesEngines
deriving DecidableEq, Repr

/-- Serde struct `HelmRelease`: the decoded Helm release document. -/
structure HelmRelease where
  chart : HelmChart
  config : Option HelmConfigValues
deriving DecidableEq, Repr

/-- Source `HelmRelease::mayastor_is_enabled` from plugin `upgrade/helm_values.rs`:
the nested `and_then`/`unwrap_or` chain over the four possible flag
locations, user config before shipped values, v4 paths before v3 paths. -/
def HelmRelease.mayastor_is_enabled (r : HelmRelease) : Bool :=
  ((((r.config.bind fun cfg => cfg.engines).bind fun eng => eng.replicated).bind
      fun rep => rep.mayastor).bind fun ms => ms.enabled).getD
    (((r.config.bind fun cfg => cfg.mayastor).bind fun ms => ms.enabled).getD
      ((r.chart.values.engines.map fun eng => eng.replicated.mayastor.enabled).getD
        ((r.chart.values.mayastor.bind fun ms => ms.enabled).getD false)))

/-- Source `HelmRelease::version`. -/
def HelmRelease.version (r : HelmRelease) : SemVer :=
  r.chart.metadata.version

/-- The four places the replicated-engine flag may live, in the priority
order the spec prescribes:
`config.engines.replicated.mayastor.enabled`, `config.mayastor.enabled`,
`values.engines.replicated.mayastor.enabled`, `values.mayastor.enabled`. -/
def mayastorFlagPriority (r : HelmRelease) : List (Option Bool) :=
  [ (((r.config.bind fun cfg => cfg.engines).bind fun eng => eng.replicated).bind
        fun rep => rep.mayastor).bind fun ms => ms.enabled
  , (r.config.bind fun cfg => cfg.mayastor).bind fun ms => ms.enabled
  , r.chart.values.engines.map fun eng => eng.replicated.mayastor.enabled
  , r.chart.values.mayastor.bind fun ms => ms.enabled ]

/-- The first present value in a priority list of optional flags. -/
def firstPresent (flags : List (Option Bool)) : Option Bool :=
  (flags.filterMap id).head?

/-! ## Deterministic resource names (`constants.rs`, `k8s/mod.rs`,
`k8s/resources.rs`, `create_upgrade_resources`, `delete_upgrade_resources`)

`upgrade_obj_suffix()` reads the build's destination version tag; it is
modelled as a pure function of that tag. -/

/-- Source `upgrade_obj_suffix` from plugin `constants.rs`: the destination
version tag with every `'.'` replaced by `'-'`. -/
def upgrade_obj_suffix (destination_version_tag : String) : String :=
  String.map (fun c => if c = '.' then '-' else c) destination_version_tag

/-- Source `upgrade_name_concat` from plugin `k8s/mod.rs`:
`releaseName-componentName-suffix`. -/
def upgrade_name_concat (release_name component_name suffix : String) : String :=
  release_name ++ "-" ++ component_name ++ "-" ++ suffix

/-- The names of the five bundle resources of one upgrade attempt. -/
structure BundleNames where
  serviceAccount : String
  clusterRole : String
  clusterRoleBinding : String
  configMap : String
  job : String
deriving DecidableEq, Repr

/-- The ClusterRoleBinding name set by `upgrade_job_cluster_role_binding`
(`k8s/resources.rs`): `{release_name}-upgrade-role-binding-{version}`. -/
def upgrade_job_cluster_role_binding_name (release_name suffix : String) : String :=
  release_name ++ "-upgrade-role-binding-" ++ suffix

/-- The ConfigMap name set by `upgrade_configmap` (`k8s/resources.rs`):
`{release_name}-upgrade-config-map-{version}`. -/
def upgrade_configmap_name (release_name suffix : String) : String :=
  release_name ++ "-upgrade-config-map-" ++ suffix

/-- The Job name set by `upgrade_job` (plugin `upgrade/mod.rs`):
`{release_name}-upgrade-{version}`. -/
def upgrade_job_name (release_name suffix : String) : String :=
  release_name ++ "-upgrade-" ++ suffix

/-- The names `create_upgrade_resources` (plugin `upgrade/mod.rs`)
assigns: the ServiceAccount and ClusterRole via `upgrade_name_concat`,
the ClusterRoleBinding via `upgrade_job_cluster_role_binding`, the
ConfigMap via `upgrade_configmap` and the Job via `upgrade_job`. -/
def create_bundle_names (release_name suffix : String) : BundleNames where
  serviceAccount := upgrade_name_concat release_name "upgrade-service-account" suffix
  clusterRole := upgrade_name_concat release_name "upgrade-role" suffix
  clusterRoleBinding := upgrade_job_cluster_role_binding_name release_name suffix
  configMap := upgrade_configmap_name release_name suffix
  job := upgrade_job_name release_name suffix

/-- The names `delete_upgrade_resources` (plugin `upgrade/mod.rs`)
targets: the Job, ConfigMap and ClusterRoleBinding by inline `format!`,
the ClusterRole and ServiceAccount via `upgrade_name_concat`. -/
def delete_bundle_names (release_name suffix : String) : BundleNames where
  serviceAccount := upgrade_name_concat release_name "upgrade-service-account" suffix
  clusterRole := upgrade_name_concat release_name "upgrade-role" suffix
  clusterRoleBinding := release_name ++ "-upgrade-role-binding-" ++ suffix
  configMap := release_name ++ "-upgrade-config-map-" ++ suffix
  job := release_name ++ "-upgrade-" ++ suffix

/-! ## Cluster state read by the preflight checks

The platform REST API's volume and node models (the `openapi` crate) and
the cluster's PersistentVolumeClaims, restricted to the fields the
preflight checks read.  Pagination (`get_volumes` page loops,
`paginated_list_metadata`) only accumulates pages; it is modelled as the
already-accumulated lists. -/

/-- A replica child of a volume target: mid-rebuild iff
`rebuild_progress` is present. -/
structure ChildState where
  rebuild_progress : Option Nat
deriving DecidableEq, Repr

/-- A volume's active target (nexus). -/
structure TargetState where
  children : List ChildState
deriving DecidableEq, Repr

/-- A volume's observed state. -/
structure VolumeState where
  target : Option TargetState
deriving DecidableEq, Repr

/-- A volume's spec: provisioned replica count and UUID. -/
structure VolumeSpec where
  num_replicas : Nat
  uuid : String
deriving DecidableEq, Repr

/-- One platform volume. -/
structure Volume where
  spec : VolumeSpec
  state : VolumeState
deriving DecidableEq, Repr

/-- Model of `openapi::models::CordonDrainState`: a node is either cordoned,
draining or drained. -/
inductive CordonDrainState
  | cordonedstate
  | drainingstate
  | drainedstate
deriving DecidableEq, Repr

/-- A platform node's spec. -/
structure NodeSpec where
  cordondrainstate : Option CordonDrainState
deriving DecidableEq, Repr

/-- One platform node. -/
structure Node where
  id : String
  spec : Option NodeSpec
deriving DecidableEq, Repr

/-- A PersistentVolumeClaim's metadata slice: uid and name. -/
structure Pvc where
  uid : Option String
  name : Option String
deriving DecidableEq, Repr

/-- Source `rebuild_in_progress` from plugin `upgrade/mod.rs`: some volume's
active target has a child replica mid-rebuild. -/
def rebuild_in_progress (volumes : List Volume) : Bool :=
  volumes.any fun volume =>
    match volume.state.target with
    | some target => target.children.any fun child => child.rebuild_progress.isSome
    | none => false

/-- Source `rebuild_in_progress_validation` from plugin `upgrade/mod.rs`. -/
def rebuild_in_progress_validation (volumes : List Volume) : Except String Unit :=
  if rebuild_in_progress volumes then
    .error "Cluster is rebuilding replica of some volumes."
  else .ok ()

/-- The failure of `already_cordoned_nodes_validation`: either some node
has no spec, or the listed node ids are in the cordoned state. -/
inductive CordonError
  | nodeSpecNotPresent
  | cordonedNodes (ids : List String)
deriving DecidableEq, Repr

/-- The node-scanning loop of `already_cordoned_nodes_validation`: walks
the node list in order, fails at the first node without a spec, and
collects the ids of the nodes whose `cordondrainstate` is
`cordonedstate`. -/
def collect_cordoned_nodes : List Node → Except CordonError (List String)
  | [] => .ok []
  | node :: rest =>
    match node.spec with
    | none => .error .nodeSpecNotPresent
    | some node_spec =>
      match collect_cordoned_nodes rest with
      | .error e => .error e
      | .ok ids =>
        if node_spec.cordondrainstate == some .cordonedstate then
          .ok (node.id :: ids)
        else
          .ok ids

/-- Source `already_cordoned_nodes_validation` from plugin `upgrade/mod.rs`:
fails when any node's `cordondrainstate` matches
`Some(CordonDrainState::cordonedstate(_))`, reporting those node ids. -/
def already_cordoned_nodes_validation (nodes : List Node) : Except CordonError Unit :=
  match collect_cordoned_nodes nodes with
  | .error e => .error e
  | .ok cordoned_nodes_list =>
    if cordoned_nodes_list.isEmpty then .ok ()
    else .error (.cordonedNodes cordoned_nodes_list)

/-- Source `get_pvc_from_uuid` from plugin `upgrade/mod.rs`: the names of the
PVCs whose uid is in the uuid list. -/
def get_pvc_from_uuid (uuid_list : List String) (pvcs : List Pvc) : List String :=
  pvcs.filterMap fun pvc =>
    match pvc.uid with
    | some uuid => if uuid_list.contains uuid then pvc.name else none
    | none => none

/-- Source `single_volume_replica_validation` from plugin `upgrade/mod.rs`:
collects the uuids of the volumes provisioned with exactly one replica
and fails (listing the cross-referenced PVC names) when any exist. -/
def single_volume_replica_validation (volumes : List Volume) (pvcs : List Pvc) :
    Except (List String) Unit :=
  let single_rep_vol_ids :=
    (volumes.filter fun volume => volume.spec.num_replicas == 1).map
      fun volume => volume.spec.uuid
  if single_rep_vol_ids.isEmpty then .ok ()
  else .error (get_pvc_from_uuid single_rep_vol_ids pvcs)

/-- A node carries the cordoned state (the only `cordondrainstate` value
`already_cordoned_nodes_validation` matches on). -/
def nodeIsCordoned (node : Node) : Bool :=
  match node.spec with
  | some node_spec => node_spec.cordondrainstate == some .cordonedstate
  | none => false

/-- A node in the draining state: it carries a cordon/drain state, but
not the `cordonedstate` variant the validation matches on. -/
def drainingNode : Node :=
  { id := "node-1", spec := some { cordondrainstate := some .drainingstate } }

/-- A node in the cordoned state, for the C7 witness. -/
def cordonedNode : Node :=
  { id := "node-0", spec := some { cordondrainstate := some .cordonedstate } }

/-! ## The preflight validation pipeline (`upgrade_preflight_check`)

The pipeline's four gates in source order, each skippable by a flag on
the CLI arguments; a trace of the checks actually run is recorded
alongside the result.  The REST client and Kubernetes client that the
source constructs before the checks are connection plumbing and are
assumed available (their data — volumes, nodes, PVCs — is the
`ClusterState` input). -/

/-- The skip flags and `allow_unstable` of `UpgradeCommonArgs`
(plugin `upgrade/cli.rs`) read by the preflight pipeline. -/
structure UpgradeArgs where
  allow_unstable : Bool
  skip_upgrade_path_validation_for_unsupported_version : Bool
  skip_replica_rebuild : Bool
  skip_cordoned_node_validation : Bool
  skip_single_replica_volume_validation : Bool
deriving DecidableEq, Repr

/-- The cluster data the preflight checks read. -/
structure ClusterState where
  volumes : List Volume
  nodes : List Node
  pvcs : List Pvc
deriving DecidableEq, Repr

/-- One of the four preflight checks. -/
inductive CheckTag
  | path
  | rebuild
  | cordon
  | singleReplica
deriving DecidableEq, Repr

/-- A preflight failure, tagged by the failing check. -/
inductive PreflightError
  | path (e : PathError)
  | rebuild (msg : String)
  | cordon (e : CordonError)
  | singleReplica (pvc_names : List String)
deriving DecidableEq, Repr

/-- One `if !skip { check()? }` step of the pipeline: a skipped check
passes through, a failing check returns its error at once (nothing after
it runs), a passing check records itself and continues. -/
def preflightStep (skip : Bool) (tag : CheckTag)
    (result : Except PreflightError Unit)
    (rest : List CheckTag × Except PreflightError Unit) :
    List CheckTag × Except PreflightError Unit :=
  if skip then rest
  else
    match result with
    | .error e => ([tag], .error e)
    | .ok () => (tag :: rest.1, rest.2)

/-- Source `upgrade_preflight_check` from plugin `upgrade/mod.rs`: when the
release's replicated-engine flag is false the whole pipeline is a no-op;
otherwise the upgrade-path, rebuild-in-progress, cordoned-node and
single-replica-volume checks run in that order with `?` early return. -/
def upgrade_preflight_check (args : UpgradeArgs) (build : BuildInfo)
    (helm_release : HelmRelease) (st : ClusterState) :
    List CheckTag × Except PreflightError Unit :=
  if helm_release.mayastor_is_enabled then
    preflightStep args.skip_upgrade_path_validation_for_unsupported_version .path
      ((upgrade_path_validation args.allow_unstable helm_release.version build).mapError .path)
      (preflightStep args.skip_replica_rebuild .rebuild
        ((rebuild_in_progress_validation st.volumes).mapError .rebuild)
        (preflightStep args.skip_cordoned_node_validation .cordon
          ((already_cordoned_nodes_validation st.nodes).mapError .cordon)
          (preflightStep args.skip_single_replica_volume_validation .singleReplica
            ((single_volume_replica_validation st.volumes st.pvcs).mapError .singleReplica)
            ([], .ok ()))))
  else ([], .ok ())

/-- Running a list of (tag, result) checks in order with short-circuit at
the first error — the behaviour the spec describes. -/
def runChecks :
    List (CheckTag × Except PreflightError Unit) →
      List CheckTag × Except PreflightError Unit
  | [] => ([], .ok ())
  | (tag, .error e) :: _ => ([tag], .error e)
  | (tag, .ok ()) :: rest => (tag :: (runChecks rest).1, (runChecks rest).2)

/-- The non-skipped checks of the pipeline, in the order the spec
prescribes, each paired with its result. -/
def activePreflightChecks (args : UpgradeArgs) (build : BuildInfo)
    (helm_release : HelmRelease) (st : ClusterState) :
    List (CheckTag × Except PreflightError Unit) :=
  (if args.skip_upgrade_path_validation_for_unsupported_version then []
    else [(.path,
      (upgrade_path_validation args.allow_unstable helm_release.version build).mapError .path)])
  ++ (if args.skip_replica_rebuild then []
    else [(.rebuild, (rebuild_in_progress_validation st.volumes).mapError .rebuild)])
  ++ (if args.skip_cordoned_node_validation then []
    else [(.cordon, (already_cordoned_nodes_validation st.nodes).mapError .cordon)])
  ++ (if args.skip_single_replica_volume_validation then []
    else [(.singleReplica,
      (single_volume_replica_validation st.volumes st.pvcs).mapError .singleReplica)])

/-! ## Safe CRD install (`openebs-upgrade/src/helm/values.rs`)

`safe_crd_install` maps four CRD-name groups to Helm value paths and,
for each group with at least one member already present in the cluster,
writes `false` to that path via `yq`.  The groups live in a `HashMap`
whose iteration order is unspecified; the claims are order-independent,
and the groups are modelled in insertion order.  The output is the list
of `(yaml_key, value)` literal writes performed. -/

/-- The `crds_to_helm_toggle` map: CRD-name group → Helm value path. -/
def crdsToHelmToggle : List (List String × String) :=
  [ ([ "volumesnapshotclasses.snapshot.storage.k8s.io"
     , "volumesnapshotcontents.snapshot.storage.k8s.io"
     , "volumesnapshots.snapshot.storage.k8s.io" ],
     ".openebs-crds.csi.volumeSnapshots.enabled")
  , ([ "jaegers.jaegertracing.io" ],
     ".mayastor.crds.jaeger.enabled")
  , ([ "zfsvolumes.zfs.openebs.io"
     , "zfsnodes.zfs.openebs.io"
     , "zfsbackups.zfs.openebs.io"
     , "zfsrestores.zfs.openebs.io"
     , "zfssnapshots.zfs.openebs.io" ],
     ".zfs-localpv.crds.zfsLocalPv.enabled")
  , ([ "lvmvolumes.zfs.openebs.io"
     , "lvmnodes.zfs.openebs.io"
     , "lvmsnapshots.zfs.openebs.io" ],
     ".lvm-localpv.crds.lvmLocalPv.enabled") ]

/-- Source `safe_crd_install` from `openebs-upgrade/src/helm/values.rs`: for
each group, if any cluster CRD name belongs to the group (an OR across
the group), write `false` to the group's Helm value path. -/
def safe_crd_install (all_crd_names : List String) : List (String × Bool) :=
  crdsToHelmToggle.filterMap fun group =>
    if all_crd_names.any fun name => group.1.contains name then
      some (group.2, false)
    else none

/-! ## The upgrade orchestration controller (`apply_upgrade`)

`apply_upgrade` (plugin `upgrade/mod.rs`) purges stale events matching
the deterministic job-name field selector
(`delete_older_upgrade_events`), creates the resource bundle, then loops
`for _ in 0..6`: sleep 10 s, list events and take the latest matching one
(`get_latest_upgrade_event`), `continue` when none is found, otherwise
handle it (`handle_upgrade_event`) and `break`.  The cluster is an
oracle: the outcomes of the purge and of the bundle creation, the event
list each poll attempt sees, the JSON parser and the rollback outcome
are inputs.  Each externally visible operation is recorded in a trace. -/

/-- The field selector `apply_upgrade` derives for the upgrade Job's
events: `regarding.kind=Job,regarding.name={job name}`. -/
def upgrade_events_field_selector (release_name suffix : String) : String :=
  "regarding.kind=Job,regarding.name=" ++ upgrade_name_concat release_name "upgrade" suffix

/-- An externally visible step of one `apply_upgrade` run. -/
inductive UpgradeStep
  | deleteOlderEvents
  | createResources
  | sleep10
  | pollNone
  | pollFound
  | handleEvent
  | deleteResources
deriving DecidableEq, Repr

/-- The environment (oracle) of one `apply_upgrade` run. -/
structure ApplyEnv where
  deleteOlderEventsResult : Except String Unit
  createResourcesResult : Except String Unit
  pollEvents : Nat → List Event
  parseNote : String → Option UpgradeEvent
  deleteResourcesResult : Except String Unit

/-- The trace `handle_upgrade_event` contributes: the handling itself,
plus the bundle deletion when it rolls back. -/
def handleEventTrace (outcome : HandleOutcome) : List UpgradeStep :=
  if outcome.deletedResources then [.handleEvent, .deleteResources]
  else [.handleEvent]

/-- The `for _ in 0..6` poll loop of `apply_upgrade`: `fuel` attempts
remain, attempt `i` is next.  Each attempt sleeps 10 s, polls, continues
on "no event yet" and otherwise handles the event and stops. -/
def apply_upgrade_loop (env : ApplyEnv) : Nat → Nat →
    List UpgradeStep × Except String Unit
  | 0, _ => ([], .ok ())
  | fuel + 1, i =>
    match get_latest_upgrade_event (env.pollEvents i) with
    | .ok latest_event =>
      let outcome := handle_upgrade_event latest_event env.parseNote env.deleteResourcesResult
      (.sleep10 :: .pollFound :: handleEventTrace outcome, outcome.result)
    | .error _ =>
      let rest := apply_upgrade_loop env fuel (i + 1)
      (.sleep10 :: .pollNone :: rest.1, rest.2)

/-- Source `apply_upgrade` from plugin `upgrade/mod.rs`: purge stale events,
create the bundle, then poll at most six times. -/
def apply_upgrade (env : ApplyEnv) : List UpgradeStep × Except String Unit :=
  match env.deleteOlderEventsResult with
  | .error e => ([.deleteOlderEvents], .error e)
  | .ok () =>
    match env.createResourcesResult with
    | .error e => ([.deleteOlderEvents, .createResources], .error e)
    | .ok () =>
      let polled := apply_upgrade_loop env 6 0
      (.deleteOlderEvents :: .createResources :: polled.1, polled.2)

/-- Six fruitless poll attempts: sleep, poll, nothing found, six times. -/
def timedOutPollTrace : List UpgradeStep :=
  (List.replicate 6 [UpgradeStep.sleep10, UpgradeStep.pollNone]).flatten

/-- A quiet environment: purge and creation succeed and no upgrade event
ever appears, for the C1 witness. -/
def quietEnv : ApplyEnv where
  deleteOlderEventsResult := .ok ()
  createResourcesResult := .ok ()
  pollEvents := fun _ => []
  parseNote := fun _ => none
  deleteResourcesResult := .ok ()

/-! ## Theorems

The claims of the specification, settled against the embedded
definitions above, together with the supporting lemmas. -/

/-- C2: for all values of `allow_unstable` and all source versions,
`upgrade_path_validation` fails iff the destination (the invoking binary's
build version tag) is a development build, or the source is stable and the
binary's version is unstable and `allow_unstable` is false, or the binary's
own version is lower than the source; otherwise it succeeds. -/
theorem upgrade_path_validation_fails_iff (allow_unstable : Bool)
    (source_version : SemVer) (build : BuildInfo) :
    upgrade_path_validation allow_unstable source_version build ≠ .ok () ↔
      (strContains build.destination_version "develop" = true
        ∨ (source_version.pre = [] ∧ allow_unstable = false
            ∧ (∀ v, build.self_version = some v → v.pre ≠ []))
        ∨ (∃ v, build.self_version = some v ∧ v.lt source_version = true)) := by
  rcases build with ⟨dest, sv⟩
  by_cases hdev : strContains dest "develop" = true
  · simp [upgrade_path_validation, hdev]
  · cases sv with
    | none =>
      cases allow_unstable <;>
        cases hsrc : source_version.pre <;>
          simp_all [upgrade_path_validation, hdev]
    | some v =>
      cases allow_unstable <;>
        cases hsrc : source_version.pre <;>
          cases hvp : v.pre <;>
            cases hlt : v.lt source_version <;>
              simp_all [upgrade_path_validation, hdev]

theorem optTimeLe_refl (a : Option Nat) : optTimeLe a a = true := by
  cases a <;> simp [optTimeLe]

theorem optTimeLe_total (a b : Option Nat) :
    optTimeLe a b = true ∨ optTimeLe b a = true := by
  cases a <;> cases b <;> simp [optTimeLe]
  exact Nat.le_total _ _

theorem optTimeLe_trans {a b c : Option Nat} (h₁ : optTimeLe a b = true)
    (h₂ : optTimeLe b c = true) : optTimeLe a c = true := by
  cases a <;> cases b <;> cases c <;> simp_all [optTimeLe]
  omega

theorem maxByEventTime_mem (e : Event) (es : List Event) :
    maxByEventTime e es ∈ e :: es := by
  induction es generalizing e with
  | nil => simp [maxByEventTime]
  | cons b bs ih =>
    have hstep : maxByEventTime e (b :: bs) =
        maxByEventTime (if optTimeLe e.event_time b.event_time then b else e) bs := by
      simp [maxByEventTime]
    rw [hstep]
    have h := List.mem_cons.mp (ih (if optTimeLe e.event_time b.event_time then b else e))
    rcases h with h | h
    · rw [h]; split <;> simp
    · simp [List.mem_cons, h]

theorem maxByEventTime_ge (e : Event) (es : List Event) :
    ∀ x ∈ e :: es, optTimeLe x.event_time (maxByEventTime e es).event_time = true := by
  induction es generalizing e with
  | nil => simp [maxByEventTime, optTimeLe_refl]
  | cons b bs ih =>
    intro x hx
    have hstep : maxByEventTime e (b :: bs) =
        maxByEventTime (if optTimeLe e.event_time b.event_time then b else e) bs := by
      simp [maxByEventTime]
    rw [hstep]
    set e' := if optTimeLe e.event_time b.event_time then b else e with he'
    have hee' : optTimeLe e.event_time e'.event_time = true := by
      rw [he']; split
      · assumption
      · exact optTimeLe_refl _
    have hbe' : optTimeLe b.event_time e'.event_time = true := by
      rw [he']; split
      · exact optTimeLe_refl _
      · rcases optTimeLe_total e.event_time b.event_time with h | h
        · simp_all
        · exact h
    have he'max : optTimeLe e'.event_time (maxByEventTime e' bs).event_time = true :=
      ih e' e' (by simp)
    simp only [List.mem_cons] at hx
    rcases hx with rfl | rfl | hx
    · exact optTimeLe_trans hee' he'max
    · exact optTimeLe_trans hbe' he'max
    · exact ih e' x (by simp [hx])

/-- C6: for every event list, `get_latest_upgrade_event` returns an event
with reason `"OpenebsUpgrade"` whose event time is maximal among the
events with that reason, and returns the error `"No upgrade event
present"` iff no listed event has that reason. -/
theorem get_latest_upgrade_event_spec (events : List Event) :
    (∀ e, get_latest_upgrade_event events = .ok e →
        e ∈ events ∧ e.reason = some "OpenebsUpgrade" ∧
          ∀ e' ∈ events, e'.reason = some "OpenebsUpgrade" →
            optTimeLe e'.event_time e.event_time = true)
    ∧ (get_latest_upgrade_event events = .error "No upgrade event present" ↔
        ∀ e ∈ events, e.reason ≠ some "OpenebsUpgrade") := by
  constructor
  · intro e hok
    unfold get_latest_upgrade_event at hok
    rcases hfil : events.filter (fun e => e.reason == some "OpenebsUpgrade") with _ | ⟨f, fs⟩
    · rw [hfil] at hok; exact absurd hok (by simp)
    · rw [hfil] at hok
      have he : e = maxByEventTime f fs := by
        simpa using hok.symm
      have hmem : e ∈ events.filter (fun e => e.reason == some "OpenebsUpgrade") := by
        rw [hfil, he]; exact maxByEventTime_mem f fs
      refine ⟨List.mem_of_mem_filter hmem, ?_, ?_⟩
      · have := List.of_mem_filter hmem
        simpa using this
      · intro e' he'mem he'reason
        have he'fil : e' ∈ events.filter (fun e => e.reason == some "OpenebsUpgrade") := by
          apply List.mem_filter_of_mem he'mem
          simp [he'reason]
        rw [hfil] at he'fil
        rw [he]
        exact maxByEventTime_ge f fs e' he'fil
  · constructor
    · intro herr e hmem hreason
      unfold get_latest_upgrade_event at herr
      rcases hfil : events.filter (fun e => e.reason == some "OpenebsUpgrade") with _ | ⟨f, fs⟩
      · have := List.filter_eq_nil_iff.mp hfil e hmem
        simp [hreason] at this
      · rw [hfil] at herr; exact absurd herr (by simp)
    · intro hall
      have hfil : events.filter (fun e => e.reason == some "OpenebsUpgrade") = [] := by
        apply List.filter_eq_nil_iff.mpr
        intro a ha
        simpa using hall a ha
      unfold get_latest_upgrade_event
      rw [hfil]

/-- C3: an idempotent create succeeds exactly when the API call succeeds
or fails with reason `"AlreadyExists"`; an idempotent delete succeeds
exactly when the call succeeds or fails with reason `"NotFound"`; and the
five-way fan-in succeeds exactly when every one of its five operations
does, so any other API error fails the whole bundle operation. -/
theorem idempotent_resource_ops_spec :
    (∀ c : Option KubeError, (idempotent_create_resource c).isOk = true ↔
        c = none ∨ c = some (.api "AlreadyExists"))
    ∧ (∀ d : Option KubeError, (idempotent_delete_resource d).isOk = true ↔
        d = none ∨ d = some (.api "NotFound"))
    ∧ (∀ r : BundleCallOutcomes,
        (create_upgrade_resources_ok r = true ↔
          ((idempotent_create_resource r.serviceAccount).isOk = true
            ∧ (idempotent_create_resource r.clusterRoleBinding).isOk = true
            ∧ (idempotent_create_resource r.clusterRole).isOk = true
            ∧ (idempotent_create_resource r.configMap).isOk = true
            ∧ (idempotent_create_resource r.job).isOk = true))
        ∧ (delete_upgrade_resources_ok r = true ↔
          ((idempotent_delete_resource r.job).isOk = true
            ∧ (idempotent_delete_resource r.configMap).isOk = true
            ∧ (idempotent_delete_resource r.clusterRole).isOk = true
            ∧ (idempotent_delete_resource r.clusterRoleBinding).isOk = true
            ∧ (idempotent_delete_resource r.serviceAccount).isOk = true))) := by
  refine ⟨?_, ?_, ?_⟩
  · intro c
    rcases c with _ | (reason | msg)
    · simp [idempotent_create_resource, Except.isOk, Except.toBool]
    · by_cases h : reason = "AlreadyExists" <;>
        simp [idempotent_create_resource, Except.isOk, Except.toBool, h]
    · simp [idempotent_create_resource, Except.isOk, Except.toBool]
  · intro d
    rcases d with _ | (reason | msg)
    · simp [idempotent_delete_resource, Except.isOk, Except.toBool]
    · by_cases h : reason = "NotFound" <;>
        simp [idempotent_delete_resource, Except.isOk, Except.toBool, h]
    · simp [idempotent_delete_resource, Except.isOk, Except.toBool]
  · intro r
    constructor
    · simp [create_upgrade_resources_ok, and_assoc]
    · simp [delete_upgrade_resources_ok, and_assoc]

/-- C10: `handle_upgrade_event` deletes the resource bundle only when the
event's action is `"Validation Failed"` and its note is present and
parses as an upgrade-event payload; with that action but no note it
errors without deleting; with no action it succeeds without reporting
progress or deleting. -/
theorem handle_upgrade_event_spec (e : Event)
    (parseNote : String → Option UpgradeEvent)
    (deleteResourcesResult : Except String Unit) :
    ((handle_upgrade_event e parseNote deleteResourcesResult).deletedResources = true ↔
        (e.action = some "Validation Failed"
          ∧ ∃ s, e.note = some s ∧ (parseNote s).isSome = true))
    ∧ (e.action = some "Validation Failed" → e.note = none →
        (handle_upgrade_event e parseNote deleteResourcesResult).result =
            .error "Note not present in upgrade event"
          ∧ (handle_upgrade_event e parseNote deleteResourcesResult).deletedResources = false)
    ∧ (e.action = none →
        (handle_upgrade_event e parseNote deleteResourcesResult).result = .ok ()
          ∧ (handle_upgrade_event e parseNote deleteResourcesResult).reportedProgress = false
          ∧ (handle_upgrade_event e parseNote deleteResourcesResult).deletedResources = false) := by
  refine ⟨?_, ?_, ?_⟩
  · rcases ha : e.action with _ | action
    · simp [handle_upgrade_event, ha]
    · by_cases hv : action = "Validation Failed"
      · subst hv
        rcases hn : e.note with _ | data
        · simp [handle_upgrade_event, ha, hn]
        · rcases hpn : parseNote data with _ | ev <;>
            simp [handle_upgrade_event, ha, hn, hpn]
      · simp [handle_upgrade_event, ha, hv]
  · intro ha hn
    simp [handle_upgrade_event, ha, hn]
  · intro ha
    simp [handle_upgrade_event, ha]

/-- C5: `mayastor_is_enabled` returns the first present flag among the
four config/values locations in exactly that priority order, and `false`
when all four are absent. -/
theorem mayastor_is_enabled_spec (r : HelmRelease) :
    r.mayastor_is_enabled = (firstPresent (mayastorFlagPriority r)).getD false := by
  rcases r with
    ⟨⟨⟨_ | ⟨_ | _⟩, _ | ⟨⟨⟨_⟩⟩⟩⟩, _⟩, _ | ⟨_ | ⟨_ | _⟩, _ | ⟨_ | ⟨_ | ⟨_ | _⟩⟩⟩⟩⟩ <;>
    rfl

/-- C9: for every release name and destination version tag, the deletion
path targets exactly the five resources under the very names the creation
path assigns, each a pure function of the release name and the
version-derived suffix. -/
theorem delete_targets_created_bundle (release_name destination_version_tag : String) :
    delete_bundle_names release_name (upgrade_obj_suffix destination_version_tag) =
      create_bundle_names release_name (upgrade_obj_suffix destination_version_tag) := by
  rfl

theorem collect_cordoned_nodes_ok (nodes : List Node)
    (hspec : ∀ n ∈ nodes, n.spec ≠ none) :
    collect_cordoned_nodes nodes = .ok ((nodes.filter nodeIsCordoned).map Node.id) := by
  induction nodes with
  | nil => rfl
  | cons node rest ih =>
    have hnode : node.spec ≠ none := hspec node (by simp)
    rcases hns : node.spec with _ | node_spec
    · exact absurd hns hnode
    · have hrest := ih fun n hn => hspec n (by simp [hn])
      by_cases hc : node_spec.cordondrainstate == some CordonDrainState.cordonedstate
      · simp [collect_cordoned_nodes, hns, hrest, hc, List.filter_cons,
          nodeIsCordoned]
      · simp [collect_cordoned_nodes, hns, hrest, hc, List.filter_cons,
          nodeIsCordoned]

/-- C7 (corrected): for every node list in which every node has a spec,
`already_cordoned_nodes_validation` fails iff at least one node carries
the *cordoned* state — the draining and drained states are not matched —
and on failure it reports exactly the ids of the cordoned nodes, in
order; otherwise it succeeds. -/
theorem already_cordoned_nodes_validation_spec (nodes : List Node)
    (hspec : ∀ n ∈ nodes, n.spec ≠ none) :
    (already_cordoned_nodes_validation nodes ≠ .ok () ↔
        ∃ n ∈ nodes, nodeIsCordoned n = true)
    ∧ (already_cordoned_nodes_validation nodes ≠ .ok () →
        already_cordoned_nodes_validation nodes =
          .error (.cordonedNodes ((nodes.filter nodeIsCordoned).map Node.id))) := by
  have hok := collect_cordoned_nodes_ok nodes hspec
  constructor
  · rcases hfil : nodes.filter nodeIsCordoned with _ | ⟨n, ns⟩
    · simp only [already_cordoned_nodes_validation, hok, hfil]
      constructor
      · intro h; exact absurd rfl h
      · rintro ⟨n, hn, hcord⟩ _
        have : n ∈ nodes.filter nodeIsCordoned := List.mem_filter_of_mem hn hcord
        simp [hfil] at this
    · simp only [already_cordoned_nodes_validation, hok, hfil]
      constructor
      · intro _
        have : n ∈ nodes.filter nodeIsCordoned := by simp [hfil]
        exact ⟨n, List.mem_of_mem_filter this, List.of_mem_filter this⟩
      · intro _
        simp [List.isEmpty]
  · intro hfail
    rcases hfil : nodes.filter nodeIsCordoned with _ | ⟨n, ns⟩
    · exfalso
      apply hfail
      simp [already_cordoned_nodes_validation, hok, hfil, List.isEmpty]
    · simp [already_cordoned_nodes_validation, hok, hfil, List.isEmpty]

/-- C7 counterexample: every node of `[drainingNode]` has a spec and
carries a cordon/drain state, yet `already_cordoned_nodes_validation`
succeeds — refuting "fails iff at least one node carries a cordoned or
drain state". -/
theorem already_cordoned_nodes_validation_drain_cex :
    (∀ n ∈ [drainingNode], n.spec ≠ none)
    ∧ (∃ n ∈ [drainingNode], ∃ s, n.spec = some s ∧ s.cordondrainstate ≠ none)
    ∧ already_cordoned_nodes_validation [drainingNode] = .ok () := by
  refine ⟨?_, ⟨drainingNode, by simp, ⟨{ cordondrainstate := some .drainingstate }, rfl, by simp⟩⟩, rfl⟩
  intro n hn
  rw [List.mem_singleton] at hn
  subst hn
  simp [drainingNode]

/-- Witness for C7's corrected theorem at a concrete node list: one
cordoned node makes the validation fail with exactly that node's id. -/
theorem already_cordoned_nodes_validation_spec_witness :
    (already_cordoned_nodes_validation [cordonedNode] ≠ .ok () ↔
        ∃ n ∈ [cordonedNode], nodeIsCordoned n = true)
    ∧ (already_cordoned_nodes_validation [cordonedNode] ≠ .ok () →
        already_cordoned_nodes_validation [cordonedNode] =
          .error (.cordonedNodes (([cordonedNode].filter nodeIsCordoned).map Node.id))) :=
  already_cordoned_nodes_validation_spec [cordonedNode]
    (by intro n hn; rw [List.mem_singleton] at hn; subst hn; simp [cordonedNode])

theorem preflightStep_runChecks (skip : Bool) (tag : CheckTag)
    (result : Except PreflightError Unit)
    (checks : List (CheckTag × Except PreflightError Unit)) :
    preflightStep skip tag result (runChecks checks) =
      runChecks ((if skip then [] else [(tag, result)]) ++ checks) := by
  by_cases h : skip
  · simp [preflightStep, h]
  · rcases result with e | ⟨⟩ <;> simp [preflightStep, runChecks, h]

/-- C4: when the release's replicated-engine flag resolves to false the
preflight pipeline succeeds running no check at all; when it is true the
pipeline runs exactly the non-skipped checks, in the order upgrade-path,
rebuild-in-progress, cordoned-node, single-replica-volume, stopping with
the error of the first failing one. -/
theorem upgrade_preflight_check_spec (args : UpgradeArgs) (build : BuildInfo)
    (helm_release : HelmRelease) (st : ClusterState) :
    upgrade_preflight_check args build helm_release st =
      if helm_release.mayastor_is_enabled then
        runChecks (activePreflightChecks args build helm_release st)
      else ([], .ok ()) := by
  unfold upgrade_preflight_check activePreflightChecks
  by_cases hen : helm_release.mayastor_is_enabled
  · simp only [hen, if_true]
    rw [show (([], Except.ok ()) : List CheckTag × Except PreflightError Unit) =
        runChecks [] from rfl]
    rw [preflightStep_runChecks, preflightStep_runChecks, preflightStep_runChecks,
      preflightStep_runChecks]
    simp [List.append_assoc]
  · simp [hen]

theorem filterMap_ite_sublist {α β : Type} (p : α → Bool) (f : α → β) (l : List α) :
    (l.filterMap fun x => if p x then some (f x) else none).Sublist (l.map f) := by
  induction l with
  | nil => simp
  | cons a as ih =>
    by_cases h : p a
    · simpa [List.filterMap_cons, h] using ih.cons₂ (f a)
    · simpa [List.filterMap_cons, h] using ih.cons (f a)

/-- C8: a `false` toggle is written for a group's Helm value path iff
some CRD name of that group is in the cluster list; the empty cluster
list and cluster lists containing no grouped name produce no toggle; and
each produced toggle is written exactly once. -/
theorem safe_crd_install_spec (all_crd_names : List String) :
    (∀ toggle : String,
        (toggle, false) ∈ safe_crd_install all_crd_names ↔
          ∃ group ∈ crdsToHelmToggle, group.2 = toggle
            ∧ ∃ crd ∈ group.1, crd ∈ all_crd_names)
    ∧ safe_crd_install [] = []
    ∧ ((∀ group ∈ crdsToHelmToggle, ∀ crd ∈ group.1, crd ∉ all_crd_names) →
        safe_crd_install all_crd_names = [])
    ∧ (safe_crd_install all_crd_names).Nodup := by
  refine ⟨?_, rfl, ?_, ?_⟩
  · intro toggle
    constructor
    · intro hmem
      rcases List.mem_filterMap.mp hmem with ⟨group, hgroup, hif⟩
      by_cases hany : (all_crd_names.any fun name => group.1.contains name) = true
      · rw [if_pos hany] at hif
        have h2 : group.2 = toggle := congrArg Prod.fst (Option.some.inj hif)
        rcases List.any_eq_true.mp hany with ⟨crd, hcrd, hc⟩
        exact ⟨group, hgroup, h2, crd, by simpa using hc, hcrd⟩
      · rw [if_neg hany] at hif
        exact absurd hif (by simp)
    · rintro ⟨group, hgroup, htoggle, crd, hcrdg, hcrdc⟩
      apply List.mem_filterMap.mpr
      refine ⟨group, hgroup, ?_⟩
      have hany : (all_crd_names.any fun name => group.1.contains name) = true := by
        simp only [List.any_eq_true]
        exact ⟨crd, hcrdc, by simpa using hcrdg⟩
      rw [if_pos hany, htoggle]
  · intro hnone
    apply List.filterMap_eq_nil_iff.mpr
    intro group hgroup
    have hany : (all_crd_names.any fun name => group.1.contains name) = false := by
      rw [List.any_eq_false]
      intro name hname hcontains
      exact hnone group hgroup name (by simpa using hcontains) hname
    rw [if_neg (by rw [hany]; exact Bool.false_ne_true)]
  · have hsub : (safe_crd_install all_crd_names).Sublist
        (crdsToHelmToggle.map fun group => (group.2, false)) := by
      unfold safe_crd_install
      exact filterMap_ite_sublist _ _ _
    exact hsub.nodup (by decide)

theorem apply_upgrade_loop_none (env : ApplyEnv) (fuel i : Nat)
    (hnone : ∀ j, j < fuel →
      (get_latest_upgrade_event (env.pollEvents (i + j))).isOk = false) :
    apply_upgrade_loop env fuel i =
      ((List.replicate fuel [UpgradeStep.sleep10, UpgradeStep.pollNone]).flatten, .ok ()) := by
  induction fuel generalizing i with
  | zero => rfl
  | succ f ih =>
    have h0 := hnone 0 (Nat.succ_pos f)
    rw [Nat.add_zero] at h0
    rcases hg : get_latest_upgrade_event (env.pollEvents i) with msg | ev
    · have hrec := ih (i + 1) fun j hj => by
        have h := hnone (j + 1) (Nat.succ_lt_succ hj)
        have harith : i + (j + 1) = i + 1 + j := by omega
        rwa [harith] at h
      simp only [apply_upgrade_loop, hg, hrec, List.replicate_succ, List.flatten_cons]
      rfl
    · rw [hg] at h0
      simp [Except.isOk, Except.toBool] at h0

theorem apply_upgrade_loop_found (env : ApplyEnv) (j : Nat) (e : Event) :
    ∀ fuel i, j < fuel →
    (∀ m, m < j → (get_latest_upgrade_event (env.pollEvents (i + m))).isOk = false) →
    get_latest_upgrade_event (env.pollEvents (i + j)) = .ok e →
    apply_upgrade_loop env fuel i =
      ((List.replicate j [UpgradeStep.sleep10, UpgradeStep.pollNone]).flatten
          ++ .sleep10 :: .pollFound ::
            handleEventTrace (handle_upgrade_event e env.parseNote env.deleteResourcesResult),
        (handle_upgrade_event e env.parseNote env.deleteResourcesResult).result) := by
  induction j with
  | zero =>
    intro fuel i hj _ hfound
    rcases fuel with _ | f
    · omega
    · rw [Nat.add_zero] at hfound
      simp [apply_upgrade_loop, hfound]
  | succ jj ih =>
    intro fuel i hj hprev hfound
    rcases fuel with _ | f
    · omega
    · have h0 := hprev 0 (Nat.succ_pos jj)
      rw [Nat.add_zero] at h0
      rcases hg : get_latest_upgrade_event (env.pollEvents i) with msg | ev
      · have hrec := ih f (i + 1) (Nat.lt_of_succ_lt_succ hj)
          (fun m hm => by
            have h := hprev (m + 1) (Nat.succ_lt_succ hm)
            have harith : i + (m + 1) = i + 1 + m := by omega
            rwa [harith] at h)
          (by
            have harith : i + (jj + 1) = i + 1 + jj := by omega
            rwa [harith] at hfound)
        simp only [apply_upgrade_loop, hg, hrec, List.replicate_succ, List.flatten_cons]
        rfl
      · rw [hg] at h0
        simp [Except.isOk, Except.toBool] at h0

/-- C1: an `apply_upgrade` run whose purge and bundle creation succeed
first purges the stale events, then creates the bundle, then polls at
most six times with a 10-second sleep before each attempt; every
fruitless poll attempt's error is `"No upgrade event present"`; when all
six attempts find no matching event the run returns success without ever
deleting the resources (the bundle remains); and polling stops at the
first attempt that finds a matching event, handling exactly that
event. -/
theorem apply_upgrade_protocol (env : ApplyEnv)
    (hdel : env.deleteOlderEventsResult = .ok ())
    (hcr : env.createResourcesResult = .ok ()) :
    ((∀ j, j < 6 → (get_latest_upgrade_event (env.pollEvents j)).isOk = false) →
        apply_upgrade env =
            (.deleteOlderEvents :: .createResources :: timedOutPollTrace, .ok ())
          ∧ UpgradeStep.deleteResources ∉ (apply_upgrade env).1)
    ∧ (∀ events : List Event, (get_latest_upgrade_event events).isOk = false →
        get_latest_upgrade_event events = .error "No upgrade event present")
    ∧ (∀ j e, j < 6 →
        (∀ m, m < j → (get_latest_upgrade_event (env.pollEvents m)).isOk = false) →
        get_latest_upgrade_event (env.pollEvents j) = .ok e →
        apply_upgrade env =
          (.deleteOlderEvents :: .createResources ::
              ((List.replicate j [UpgradeStep.sleep10, UpgradeStep.pollNone]).flatten
                ++ .sleep10 :: .pollFound ::
                  handleEventTrace
                    (handle_upgrade_event e env.parseNote env.deleteResourcesResult)),
            (handle_upgrade_event e env.parseNote env.deleteResourcesResult).result)) := by
  refine ⟨?_, ?_, ?_⟩
  · intro hnone
    have hloop := apply_upgrade_loop_none env 6 0 fun j hj => by
      have h := hnone j hj
      rwa [Nat.zero_add]
    have happ : apply_upgrade env =
        (.deleteOlderEvents :: .createResources :: timedOutPollTrace, .ok ()) := by
      simp only [apply_upgrade, hdel, hcr, hloop, timedOutPollTrace]
    refine ⟨happ, ?_⟩
    rw [happ]
    simp only [timedOutPollTrace]
    decide
  · intro events hnotok
    unfold get_latest_upgrade_event at hnotok ⊢
    rcases hfil : events.filter (fun e => e.reason == some "OpenebsUpgrade") with _ | ⟨f, fs⟩
    · rw [hfil]
    · rw [hfil] at hnotok
      simp [Except.isOk, Except.toBool] at hnotok
  · intro j e hj hprev hfound
    have hloop := apply_upgrade_loop_found env j e 6 0 hj
      (fun m hm => by have h := hprev m hm; rwa [Nat.zero_add])
      (by rwa [Nat.zero_add])
    simp only [apply_upgrade, hdel, hcr, hloop]

/-- Witness for C1 in the quiet environment: six fruitless polls, the
run succeeds and never deletes the resources. -/
theorem apply_upgrade_protocol_witness :
    apply_upgrade quietEnv =
        (.deleteOlderEvents :: .createResources :: timedOutPollTrace, .ok ())
      ∧ UpgradeStep.deleteResources ∉ (apply_upgrade quietEnv).1 :=
  (apply_upgrade_protocol quietEnv rfl rfl).1 fun _ _ => rfl

end OpenebsUpgrade
